import Mathlib

/-!
# bpftime-monitor: clock-adjustment probes and their userspace consumers

Shallow embedding of

* `bpf/timex_event.h`            (the `TimexEvent` wire record),
* `bpf/clock_adjtime.bpf.c`      (the three tracepoint hooks),
* `bpfutils/include/ringbuf.h`   (`RingBuffer<T>::Callback`),
* `bpfutils/src/signalhandler.cpp` (`SignalHandler`),
* `app/main.cpp`                 (`StatusToString`).

Machine integers are natural numbers holding the stored bit pattern; signed
readings go through `toInt32` / `toInt64`.  Memory is byte addressed and
little endian (the BPF target of the probe object).
-/

namespace Bpftime

/-! ## Machine integers and bytes -/

/-- One byte of memory. -/
abbrev Byte := Fin 256

/-- The byte holding the low eight bits of `v`. -/
def Byte.ofNat (v : Nat) : Byte := ⟨v % 256, Nat.mod_lt v (by decide)⟩

/-- Signed reading of a 32-bit pattern (`int`, `clockid_t`, `int32_t`). -/
def toInt32 (x : Nat) : Int :=
  if x % 2 ^ 32 < 2 ^ 31 then ((x % 2 ^ 32 : Nat) : Int) else ((x % 2 ^ 32 : Nat) : Int) - 2 ^ 32

/-- Signed reading of a 64-bit pattern (`long`, `int64_t`). -/
def toInt64 (x : Nat) : Int :=
  if x % 2 ^ 64 < 2 ^ 63 then ((x % 2 ^ 64 : Nat) : Int) else ((x % 2 ^ 64 : Nat) : Int) - 2 ^ 64

/-- The 64-bit pattern of a `long`. -/
def ofInt64 (x : Int) : Nat := (x % 2 ^ 64).toNat

/-- The `n` little-endian bytes of the low `8 * n` bits of `v`. -/
def leBytes : Nat → Nat → List Byte
  | 0, _ => []
  | n + 1, v => Byte.ofNat v :: leBytes n (v / 256)

/-- The unsigned value stored in a little-endian byte string. -/
def leValue : List Byte → Nat
  | [] => 0
  | b :: bs => b.val + 256 * leValue bs

/-! ## User memory and the safe cross-context read -/

/-- User address space as seen from the probe: a byte address is mapped to a
byte or it faults. -/
abbrev UserMem := Nat → Option Byte

/-- Fetch `n` consecutive bytes starting at `addr`; `none` when any of them faults. -/
def copy_from_user (mem : UserMem) : Nat → Nat → Option (List Byte)
  | _, 0 => some []
  | addr, n + 1 =>
    match mem addr, copy_from_user mem (addr + 1) n with
    | some b, some bs => some (b :: bs)
    | _, _ => none

/-- Effect of `bpf_core_read_user(dst, sz, src)` on the destination, whose previous
content is zero at every call site of the probe (`modes = 0`, `tv_nsec = 0`, the
zero-filled record): the bytes read, or a destination that is still all zero when
the read faults.  The hooks never look at the helper's return code. -/
def bpf_core_read_user (mem : UserMem) (sz : Nat) (src : Nat) : Nat :=
  match copy_from_user mem src sz with
  | some bs => leValue bs
  | none => 0

/-- Field offsets of the two user structures the hooks read.  They come from
`vmlinux.h` (`struct __kernel_timex`, `struct __kernel_timespec`) and are taken
as a parameter. -/
structure KernelLayout where
  timex_modes : Nat
  timex_freq : Nat
  timex_esterror : Nat
  timex_status : Nat
  timex_tick : Nat
  timespec_tv_nsec : Nat
deriving DecidableEq, Repr

/-- The x86_64 layout of `struct __kernel_timex` and `struct __kernel_timespec`. -/
def KernelLayout.x86_64 : KernelLayout :=
  { timex_modes := 0, timex_freq := 16, timex_esterror := 32, timex_status := 40,
    timex_tick := 88, timespec_tv_nsec := 8 }

/-- Address of a member of a user structure: 64-bit pointer arithmetic. -/
def fieldAddr (base off : Nat) : Nat := (base + off) % 2 ^ 64

/-! ## `timex_event.h` -/

/-- Bit `i` of a status word. -/
def statusBit (R : Nat) (i : Nat) : Bool := R / 2 ^ i % 2 = 1

/-- The bit-field view `struct TimexStatusBits`, lowest bit first. -/
structure TimexStatusBits where
  pll_updates_enabled : Bool
  pps_freq_discipline_enabled : Bool
  pps_time_discipline_enabled : Bool
  frequency_lock_mode_enabled : Bool
  inserting_leap_second : Bool
  deleting_leap_second : Bool
  clock_unsynchronized : Bool
  holding_frequency : Bool
  pps_signal_present : Bool
  pps_signal_jitter_exceeded : Bool
  pps_signal_wander_exceeded : Bool
  pps_signal_calibration_error : Bool
  clock_hardware_fault : Bool
  ns_resolution : Bool
  fll_mode : Bool
  clock_source : Bool
  reserved : Nat
deriving DecidableEq, Repr

/-- The union `TimexStatus`: the raw 32-bit word `R`. -/
structure TimexStatus where
  R : Nat
deriving DecidableEq, Repr

/-- The view `B` of the union: the same 32 bits read as bit-fields. -/
def TimexStatus.B (st : TimexStatus) : TimexStatusBits :=
  { pll_updates_enabled := statusBit st.R 0
    pps_freq_discipline_enabled := statusBit st.R 1
    pps_time_discipline_enabled := statusBit st.R 2
    frequency_lock_mode_enabled := statusBit st.R 3
    inserting_leap_second := statusBit st.R 4
    deleting_leap_second := statusBit st.R 5
    clock_unsynchronized := statusBit st.R 6
    holding_frequency := statusBit st.R 7
    pps_signal_present := statusBit st.R 8
    pps_signal_jitter_exceeded := statusBit st.R 9
    pps_signal_wander_exceeded := statusBit st.R 10
    pps_signal_calibration_error := statusBit st.R 11
    clock_hardware_fault := statusBit st.R 12
    ns_resolution := statusBit st.R 13
    fll_mode := statusBit st.R 14
    clock_source := statusBit st.R 15
    reserved := st.R / 2 ^ 16 % 2 ^ 16 }

/-- The record `struct TimexEvent`.  Every field holds its stored bit pattern:
`freq`, `tick` 64 bits, `status` 32 bits, `modes` the 32 bits of an `int32_t`,
`esterror` the 64 bits of an `int64_t`. -/
structure TimexEvent where
  freq : Nat
  tick : Nat
  status : TimexStatus
  modes : Nat
  esterror : Nat
deriving DecidableEq, Repr

/-- The size `sizeof(struct TimexEvent)`: 8 + 8 + 4 + 4 + 8 bytes, no padding. -/
def sizeof_TimexEvent : Nat := 32

/-- The size `sizeof(long)` on the BPF target. -/
def sizeof_long : Nat := 8

/-- Memory image of a `TimexEvent`, fields in declaration order. -/
def TimexEvent.encode (ev : TimexEvent) : List Byte :=
  leBytes 8 ev.freq ++ leBytes 8 ev.tick ++ leBytes 4 ev.status.R ++ leBytes 4 ev.modes
    ++ leBytes 8 ev.esterror

/-- Reading a `TimexEvent` out of a memory image (`*static_cast<TimexEvent*>(data)`). -/
def TimexEvent.decode (data : List Byte) : TimexEvent :=
  { freq := leValue (data.take 8)
    tick := leValue ((data.drop 8).take 8)
    status := ⟨leValue ((data.drop 16).take 4)⟩
    modes := leValue ((data.drop 20).take 4)
    esterror := leValue ((data.drop 24).take 8) }

/-- Reading a `long` out of a memory image (`*static_cast<long*>(data)`). -/
def decodeLong (data : List Byte) : Int := toInt64 (leValue (data.take 8))

/-! ## `clock_adjtime.bpf.c`: constants and maps -/

def ADJ_OFFSET : Nat := 0x0001
def ADJ_FREQUENCY : Nat := 0x0002
def ADJ_ESTERROR : Nat := 0x0008
def ADJ_STATUS : Nat := 0x0010
def ADJ_SETOFFSET : Nat := 0x0100
def ADJ_TICK : Nat := 0x4000

def STA_UNSYNC : Nat := 0x0040
def CLOCK_REALTIME : Int := 0

/-- The macro `KB(x)`. -/
def KB (x : Nat) : Nat := x * 1024

/-- A `BPF_MAP_TYPE_RINGBUF` map: its data size, the two positions, and the
records committed so far (oldest first), each as its bytes. -/
structure RingBuf where
  max_entries : Nat
  consumer_pos : Nat
  producer_pos : Nat
  records : List (List Byte)
deriving DecidableEq, Repr

/-- Size of the header the kernel puts in front of every ring-buffer record. -/
def BPF_RINGBUF_HDR_SZ : Nat := 8

/-- The helper `bpf_ringbuf_reserve(&rb, size, 0)`: the record and its header,
rounded up to 8 bytes, must fit between consumer and producer position;
`none` is the `NULL` the hooks test for, otherwise the slot is claimed. -/
def bpf_ringbuf_reserve (rb : RingBuf) (size : Nat) : Option RingBuf :=
  let len := (size + BPF_RINGBUF_HDR_SZ + 7) / 8 * 8
  if len > rb.max_entries then none
  else if rb.producer_pos + len - rb.consumer_pos > rb.max_entries - 1 then none
  else some { rb with producer_pos := rb.producer_pos + len }

/-- The helper `bpf_ringbuf_submit(rec, 0)`: publish the filled slot. -/
def bpf_ringbuf_submit (rb : RingBuf) (data : List Byte) : RingBuf :=
  { rb with records := rb.records ++ [data] }

/-- The three maps of the probe object.  `last_ret` is the
`BPF_MAP_TYPE_PERCPU_ARRAY` with `max_entries = 1`: one `long` per CPU. -/
structure BpfState where
  clock_events : RingBuf
  status_events : RingBuf
  last_ret : List Int
deriving DecidableEq, Repr

/-- The maps right after the object is loaded on a machine with `ncpu` CPUs:
two empty 4 KiB rings and zeroed per-CPU slots. -/
def BpfState.init (ncpu : Nat) : BpfState :=
  { clock_events := ⟨KB 4, 0, 0, []⟩
    status_events := ⟨KB 4, 0, 0, []⟩
    last_ret := List.replicate ncpu 0 }

/-- The helper `bpf_map_lookup_elem(&last_ret, &key)` run on CPU `cpu`: the slot
of that CPU for an index below `max_entries = 1`, else `NULL`. -/
def bpf_map_lookup_elem (last_ret : List Int) (cpu : Nat) (key : Nat) : Option Int :=
  if key < 1 then last_ret[cpu]? else none

/-- Context `struct trace_event_raw_sys_enter`: syscall number and the six
`unsigned long` argument registers. -/
structure trace_event_raw_sys_enter where
  id : Int
  args : Fin 6 → Nat

/-- Context `struct trace_event_raw_sys_exit`: syscall number and return value. -/
structure trace_event_raw_sys_exit where
  id : Int
  ret : Int
deriving DecidableEq, Repr

/-- The all-zero record left by `__builtin_memset(ev, 0, sizeof(struct TimexEvent))`. -/
def TimexEvent.zero : TimexEvent :=
  { freq := 0, tick := 0, status := ⟨0⟩, modes := 0, esterror := 0 }

/-- The set of mode bits tested by `clock_adjtime_enter`. -/
def ADJ_INTERESTING : Nat :=
  ADJ_TICK ||| ADJ_FREQUENCY ||| ADJ_STATUS ||| ADJ_OFFSET ||| ADJ_SETOFFSET ||| ADJ_ESTERROR

/-! ## The three hooks -/

/-- The value of `modes` after the read at line 73 of `clock_adjtime_enter`. -/
def adjtime_modes (L : KernelLayout) (mem : UserMem) (ctx : trace_event_raw_sys_enter) : Nat :=
  bpf_core_read_user mem 4 (fieldAddr (ctx.args 1) L.timex_modes)

/-- Hook `clock_adjtime_enter` (tracepoint `sys_enter_clock_adjtime`). -/
def clock_adjtime_enter (L : KernelLayout) (mem : UserMem) (ctx : trace_event_raw_sys_enter)
    (st : BpfState) : BpfState :=
  let which_clock := toInt32 (ctx.args 0)
  let tx := ctx.args 1
  if which_clock ≠ CLOCK_REALTIME ∨ tx = 0 then st
  else
    let modes := bpf_core_read_user mem 4 (fieldAddr tx L.timex_modes)
    if modes &&& ADJ_INTERESTING = 0 then st
    else
      match bpf_ringbuf_reserve st.clock_events sizeof_TimexEvent with
      | none => st
      | some rb =>
        let ev := TimexEvent.zero
        let ev := { ev with modes := modes }
        let ev := if modes &&& ADJ_ESTERROR ≠ 0 then
          { ev with esterror := bpf_core_read_user mem 8 (fieldAddr tx L.timex_esterror) } else ev
        let ev := if modes &&& ADJ_FREQUENCY ≠ 0 then
          { ev with freq := bpf_core_read_user mem 8 (fieldAddr tx L.timex_freq) } else ev
        let ev := if modes &&& ADJ_TICK ≠ 0 then
          { ev with tick := bpf_core_read_user mem 8 (fieldAddr tx L.timex_tick) } else ev
        let ev := if modes &&& ADJ_STATUS ≠ 0 then
          { ev with status := ⟨bpf_core_read_user mem 4 (fieldAddr tx L.timex_status)⟩ } else ev
        { st with clock_events := bpf_ringbuf_submit rb ev.encode }

/-- Hook `clock_adjtime_exit` (tracepoint `sys_exit_clock_adjtime`), run on CPU `cpu`. -/
def clock_adjtime_exit (cpu : Nat) (ctx : trace_event_raw_sys_exit) (st : BpfState) : BpfState :=
  let key := 0
  let ret := ctx.ret
  if ret < 0 then st
  else
    match bpf_map_lookup_elem st.last_ret cpu key with
    | none => st
    | some _ =>
      let st := { st with last_ret := st.last_ret.set cpu ret }
      match bpf_ringbuf_reserve st.status_events sizeof_long with
      | none => st
      | some rb =>
        { st with status_events := bpf_ringbuf_submit rb (leBytes sizeof_long (ofInt64 ret)) }

/-- The value of `tv_nsec` after the read at line 182 of `clock_settime_enter`. -/
def settime_tv_nsec (L : KernelLayout) (mem : UserMem) (ctx : trace_event_raw_sys_enter) : Int :=
  toInt64 (bpf_core_read_user mem 8 (fieldAddr (ctx.args 1) L.timespec_tv_nsec))

/-- Hook `clock_settime_enter` (tracepoint `sys_enter_clock_settime`). -/
def clock_settime_enter (L : KernelLayout) (mem : UserMem) (ctx : trace_event_raw_sys_enter)
    (st : BpfState) : BpfState :=
  let which_clock := toInt32 (ctx.args 0)
  let tp := ctx.args 1
  if which_clock ≠ CLOCK_REALTIME ∨ tp = 0 then st
  else
    let tv_nsec := toInt64 (bpf_core_read_user mem 8 (fieldAddr tp L.timespec_tv_nsec))
    if tv_nsec < 0 ∨ tv_nsec > 999999999 then st
    else
      match bpf_ringbuf_reserve st.clock_events sizeof_TimexEvent with
      | none => st
      | some rb =>
        let ev := TimexEvent.zero
        let ev := { ev with modes := ADJ_STATUS ||| ADJ_SETOFFSET }
        let ev := { ev with status := ⟨STA_UNSYNC⟩ }
        { st with clock_events := bpf_ringbuf_submit rb ev.encode }

/-- Records committed to a ring between two states of it. -/
def newRecords (before after : RingBuf) : List (List Byte) :=
  after.records.drop before.records.length

/-! ## `ringbuf.h`: the typed consumer -/

/-- What `RingBuffer<T>` uses of its record type `T`: the size `sizeof(T)` and the
reading `*static_cast<T*>(data)` of a memory image. -/
structure RecordType (T : Type) where
  sizeof : Nat
  decode : List Byte → T

/-- The record type `TimexEvent` of the consumer `RingBuffer<TimexEvent>`. -/
def RecordType.timexEvent : RecordType TimexEvent := ⟨sizeof_TimexEvent, TimexEvent.decode⟩

/-- The record type `long` of the consumer `RingBuffer<long>`. -/
def RecordType.long : RecordType Int := ⟨sizeof_long, decodeLong⟩

/-- The static member `RingBuffer<T>::Callback(ctx, data, size)`.  The handler stored
in the context is a procedure on the caller's state `σ`; the result is the returned
`int` and the state the handler calls left behind. -/
def RingBuffer.Callback {T σ : Type} (rt : RecordType T) (handler : T → σ → σ)
    (data : List Byte) (size : Nat) (s : σ) : Int × σ :=
  if size ≠ rt.sizeof then (0, s)
  else
    let s := handler (rt.decode data) s
    (0, s)

/-- A handler that only notes the value it is called with. -/
def recordCall {T : Type} (v : T) (calls : List T) : List T := calls ++ [v]

/-- The loop of libbpf `ring_buffer__consume`: hand every committed record with its
length to the callback, stop at a negative return, count the records otherwise. -/
def ringbuf_process {σ : Type} (cb : List Byte → Nat → σ → Int × σ) :
    List (List Byte) → Int → σ → Int × σ
  | [], cnt, s => (cnt, s)
  | r :: rs, cnt, s =>
    match cb r r.length s with
    | (err, s1) => if err < 0 then (err, s1) else ringbuf_process cb rs (cnt + 1) s1

/-- The method `RingBuffer<T>::consume()` on the records waiting in a ring. -/
def RingBuffer.consume {T σ : Type} (rt : RecordType T) (handler : T → σ → σ) (rb : RingBuf)
    (s : σ) : Int × σ :=
  ringbuf_process (RingBuffer.Callback rt handler) rb.records 0 s

/-! ## `signalhandler.cpp` -/

/-- A signal set: the signal numbers it holds. -/
abbrev sigset_t := Finset Nat

def SIGINT : Int := 2
def SIGKILL : Nat := 9
def SIGTERM : Int := 15
def SIGSTOP : Nat := 19
def EINVAL : Int := 22
def EAGAIN : Int := 11

/-- What the class touches of the process: the blocked-signal mask of the calling
thread and the open descriptors. -/
structure Process where
  blocked : sigset_t
  open_fds : Finset Int
deriving DecidableEq

/-- The call `sigaddset(&set, s)` of glibc; `none` is the failure (EINVAL) for a number
outside 1..64 and for the two numbers 32 and 33 that glibc keeps for itself. -/
def sigaddset (set : sigset_t) (s : Int) : Option sigset_t :=
  if 1 ≤ s ∧ s ≤ 64 ∧ s ≠ 32 ∧ s ≠ 33 then some (insert s.toNat set) else none

/-- First argument of `pthread_sigmask`. -/
inductive How where
  | SIG_BLOCK
  | SIG_UNBLOCK
  | SIG_SETMASK
deriving DecidableEq, Repr

/-- The call `pthread_sigmask(how, &set, &old)`: the new mask (SIGKILL and SIGSTOP
can never be blocked) and the mask that was active before, stored through `old`. -/
def pthread_sigmask (how : How) (set : sigset_t) (p : Process) : Process × sigset_t :=
  let requested : sigset_t :=
    match how with
    | How.SIG_BLOCK => p.blocked ∪ set
    | How.SIG_UNBLOCK => p.blocked \ set
    | How.SIG_SETMASK => set
  ({ p with blocked := requested \ {SIGKILL, SIGSTOP} }, p.blocked)

/-- The exception `SignalError`: message and `errno`. -/
structure SignalError where
  what : String
  errnum : Int
deriving DecidableEq, Repr

/-- Data members of `SignalHandler`. -/
structure SignalHandler where
  signal_fd_ : Int
  mask_ : sigset_t
  old_mask_ : sigset_t
deriving DecidableEq

/-- The loop `for (int s : signals) sigaddset(&mask_, s)` of the constructor. -/
def addSignals : List Int → sigset_t → Option sigset_t
  | [], mask => some mask
  | s :: rest, mask =>
    match sigaddset mask s with
    | none => none
    | some mask1 => addSignals rest mask1

/-- The constructor `SignalHandler::SignalHandler(signals)`.  `sfd` is the value
`signalfd(-1, &mask_, SFD_CLOEXEC | SFD_NONBLOCK)` returns and `errno` the error
number it leaves on failure.  The process state is returned on both exits: an
exception does not undo the blocking. -/
def SignalHandler.ctor (signals : List Int) (sfd : Int) (errno : Int) (p : Process) :
    Process × Except SignalError SignalHandler :=
  match addSignals signals ∅ with
  | none => (p, .error ⟨"sigaddset failed", EINVAL⟩)
  | some mask_ =>
    match pthread_sigmask How.SIG_BLOCK mask_ p with
    | (p1, old_mask_) =>
      let signal_fd_ := sfd
      if signal_fd_ = -1 then (p1, .error ⟨"signalfd failed", errno⟩)
      else ({ p1 with open_fds := insert signal_fd_ p1.open_fds }, .ok ⟨signal_fd_, mask_, old_mask_⟩)

/-- The destructor `SignalHandler::~SignalHandler()`. -/
def SignalHandler.dtor (h : SignalHandler) (p : Process) : Process :=
  let p := if h.signal_fd_ ≥ 0 then { p with open_fds := p.open_fds.erase h.signal_fd_ } else p
  (pthread_sigmask How.SIG_UNBLOCK h.old_mask_ p).1

/-- The part of `struct signalfd_siginfo` the program looks at, and the rest of its
128 bytes. -/
structure signalfd_siginfo where
  ssi_signo : Nat
  rest : List Byte
deriving DecidableEq, Repr

/-- The size `sizeof(signalfd_siginfo)`. -/
def sizeof_signalfd_siginfo : Int := 128

/-- Outcome of `read(signal_fd_, &fdsi, sizeof(fdsi))`: the returned `ssize_t`, the
value of `errno` after the call, and the content of `fdsi` after the call. -/
structure ReadResult where
  s : Int
  errno : Int
  fdsi : signalfd_siginfo
deriving DecidableEq, Repr

/-- The method `SignalHandler::consume()`, given the outcome of its `read`. -/
def SignalHandler.consume (r : ReadResult) : Except SignalError (Option signalfd_siginfo) :=
  if r.s = -1 then
    if r.errno = EAGAIN then .ok none
    else .error ⟨"read from signalfd failed", r.errno⟩
  else if r.s ≠ sizeof_signalfd_siginfo then
    .error ⟨"size of read data does not match signalfd_siginfo", r.errno⟩
  else .ok (some r.fdsi)

/-! ## `main.cpp`: `StatusToString` -/

/-- The call `std::string::pop_back()`: drop the last character. -/
def pop_back (s : String) : String := ⟨s.data.dropLast⟩

/-- One statement `if (flag) out += text;` of `StatusToString`. -/
def addFlag (flag : Bool) (text : String) (out : String) : String :=
  if flag then out ++ text else out

/-- The function `StatusToString(const TimexStatus&)`. -/
def StatusToString (st : TimexStatus) : String :=
  let out := ""
  let s := st.B
  let out := addFlag s.pll_updates_enabled "PLL|" out
  let out := addFlag s.pps_freq_discipline_enabled "PPSFREQ|" out
  let out := addFlag s.pps_time_discipline_enabled "PPSTIME|" out
  let out := addFlag s.frequency_lock_mode_enabled "FLL|" out
  let out := addFlag s.inserting_leap_second "INS|" out
  let out := addFlag s.deleting_leap_second "DEL|" out
  let out := addFlag s.clock_unsynchronized "UNSYNC|" out
  let out := addFlag s.holding_frequency "FREQHOLD|" out
  let out := addFlag s.pps_signal_present "PPSSIGNAL|" out
  let out := addFlag s.pps_signal_jitter_exceeded "PPSJITTER|" out
  let out := addFlag s.pps_signal_wander_exceeded "PPSWANDER|" out
  let out := addFlag s.pps_signal_calibration_error "PPSERROR|" out
  let out := addFlag s.clock_hardware_fault "CLOCKERR|" out
  let out := addFlag s.ns_resolution "NANO|" out
  let out := addFlag s.fll_mode "MODE|" out
  let out := addFlag s.clock_source "CLK|" out
  let out := if out ≠ "" then pop_back out else out
  if out = "" then "NONE" else out

/-- The flag names of the specification, by bit position 0..15. -/
def flagTable : List String :=
  ["PLL", "PPSFREQ", "PPSTIME", "FLL", "INS", "DEL", "UNSYNC", "FREQHOLD", "PPSSIGNAL",
   "PPSJITTER", "PPSWANDER", "PPSERROR", "CLOCKERR", "NANO", "MODE", "CLK"]

/-- Names of the bits of `R` that are set, among the positions `i, i+1, ...` named by
`names`, in ascending position. -/
def setFlagsFrom (R : Nat) : Nat → List String → List String
  | _, [] => []
  | i, n :: ns => if statusBit R i then n :: setFlagsFrom R (i + 1) ns else setFlagsFrom R (i + 1) ns

/-- The flag list the specification describes for a status word. -/
def statusFlagNames (R : Nat) : List String := setFlagsFrom R 0 flagTable

/-- The text the specification describes: "NONE" for no flag, else the names joined
by single bars. -/
def statusText (R : Nat) : String :=
  if statusFlagNames R = [] then "NONE" else "|".intercalate (statusFlagNames R)

/-- The flag tests of `StatusToString` in source order, from bit position `i` on: the
bit tested and the name appended for it. -/
def flagTests (R : Nat) : Nat → List String → List (Bool × String)
  | _, [] => []
  | i, n :: ns => (statusBit R i, n) :: flagTests R (i + 1) ns

/-- A run of `if (flag) out += "NAME|";` statements. -/
def appendFlags : List (Bool × String) → String → String
  | [], out => out
  | (b, n) :: rest, out => appendFlags rest (addFlag b (n ++ "|") out)

/-- The tail of `StatusToString`: drop the last bar, and answer "NONE" for no flag. -/
def finishFlags (out : String) : String :=
  let out := if out ≠ "" then pop_back out else out
  if out = "" then "NONE" else out

/-- Characters of a list of names, each followed by a bar. -/
def barred : List String → List Char
  | [] => []
  | n :: ns => n.data ++ '|' :: barred ns

/-! ## Traced calls -/

/-- One traced call `clock_adjtime(which_clock, utx)` together with its return value. -/
structure ClockAdjtimeCall where
  which_clock : Int
  utx : Nat
  ret : Int
deriving DecidableEq, Repr

/-- Syscall number of `clock_adjtime` on x86_64. -/
def NR_clock_adjtime : Int := 305

/-- The context the entry tracepoint passes for a call: the arguments in the first
two registers, the clock-id sign-extended. -/
def ClockAdjtimeCall.enter_ctx (c : ClockAdjtimeCall) : trace_event_raw_sys_enter :=
  { id := NR_clock_adjtime
    args := fun i => if i = 0 then ofInt64 c.which_clock else if i = 1 then c.utx else 0 }

/-- The context the exit tracepoint passes for a call: only number and return value. -/
def ClockAdjtimeCall.exit_ctx (c : ClockAdjtimeCall) : trace_event_raw_sys_exit :=
  { id := NR_clock_adjtime, ret := c.ret }

/-- Arguments `(which_clock, ptr)` of an entry context as the tracepoint stores them. -/
def enterCtx (id : Int) (which_clock : Int) (ptr : Nat) : trace_event_raw_sys_enter :=
  { id := id, args := fun i => if i = 0 then ofInt64 which_clock else if i = 1 then ptr else 0 }

/-- The record `clock_adjtime_enter` has filled when it reaches `bpf_ringbuf_submit`
(lines 83 to 93), for the pointer `tx` and the `modes` it read. -/
def adjtime_event (L : KernelLayout) (mem : UserMem) (tx modes : Nat) : TimexEvent :=
  { freq := if modes &&& ADJ_FREQUENCY ≠ 0 then
      bpf_core_read_user mem 8 (fieldAddr tx L.timex_freq) else 0
    tick := if modes &&& ADJ_TICK ≠ 0 then
      bpf_core_read_user mem 8 (fieldAddr tx L.timex_tick) else 0
    status := if modes &&& ADJ_STATUS ≠ 0 then
      ⟨bpf_core_read_user mem 4 (fieldAddr tx L.timex_status)⟩ else ⟨0⟩
    modes := modes
    esterror := if modes &&& ADJ_ESTERROR ≠ 0 then
      bpf_core_read_user mem 8 (fieldAddr tx L.timex_esterror) else 0 }

/-- The record `clock_settime_enter` has filled when it reaches `bpf_ringbuf_submit`
(lines 192 to 194). -/
def settime_event : TimexEvent :=
  { freq := 0, tick := 0, status := ⟨STA_UNSYNC⟩, modes := ADJ_STATUS ||| ADJ_SETOFFSET,
    esterror := 0 }

/-- A successful adjustment of a dynamic (PTP) clock: clock-id `FD_TO_CLOCKID(3) = -29`,
return value 0. -/
def ptpCall : ClockAdjtimeCall := { which_clock := -29, utx := 0x7000, ret := 0 }

/-- Maps in which `clock_events` is full: 102 unconsumed records of 40 bytes each. -/
def clockRingFull : BpfState :=
  { clock_events := ⟨KB 4, 0, 4080, List.replicate 102 TimexEvent.zero.encode⟩
    status_events := ⟨KB 4, 0, 0, []⟩
    last_ret := [0] }

/-- Maps in which `status_events` is full: 255 unconsumed records of 16 bytes each. -/
def statusRingFull : BpfState :=
  { clock_events := ⟨KB 4, 0, 0, []⟩
    status_events := ⟨KB 4, 0, 4080, List.replicate 255 (leBytes sizeof_long 0)⟩
    last_ret := [0] }

/-- A user `struct __kernel_timespec` at address 4096 with `tv_sec = 7`, `tv_nsec = 500`. -/
def timespec500 : UserMem := fun a =>
  if a = 4096 then some 7 else if a = 4104 then some 244 else if a = 4105 then some 1
  else if 4096 ≤ a ∧ a < 4112 then some 0 else none

/-- A user `struct __kernel_timex` at address 4096 whose only non-zero bytes are those
of `modes`, `freq = 77` and `tick = 9`. -/
def timexMem (modes : Nat) : UserMem := fun a =>
  if 4096 ≤ a ∧ a < 4100 then (leBytes 4 modes)[a - 4096]?
  else if a = 4112 then some 77 else if a = 4184 then some 9
  else if 4096 ≤ a ∧ a < 4304 then some 0 else none

/-- Entry context of a call on the realtime clock with the user pointer 4096. -/
def realtimeCtx : trace_event_raw_sys_enter := enterCtx 0 CLOCK_REALTIME 4096

/-- The life of one `SignalHandler` object: construction, then, when construction did
not throw, destruction.  The result is the process state left behind. -/
def SignalHandler.lifetime (signals : List Int) (sfd : Int) (errno : Int) (p : Process) :
    Process :=
  match SignalHandler.ctor signals sfd errno p with
  | (p1, .ok h) => h.dtor p1
  | (p1, .error _) => p1

/-- The bit-field view in which only the unsynchronized flag is set. -/
def onlyUnsync : TimexStatusBits :=
  { pll_updates_enabled := false, pps_freq_discipline_enabled := false,
    pps_time_discipline_enabled := false, frequency_lock_mode_enabled := false,
    inserting_leap_second := false, deleting_leap_second := false,
    clock_unsynchronized := true, holding_frequency := false, pps_signal_present := false,
    pps_signal_jitter_exceeded := false, pps_signal_wander_exceeded := false,
    pps_signal_calibration_error := false, clock_hardware_fault := false,
    ns_resolution := false, fll_mode := false, clock_source := false, reserved := 0 }

/-- A user memory holding the given bytes from address `base` on, unmapped elsewhere. -/
def memAt (base : Nat) (bytes : List Byte) : UserMem :=
  fun a => if base ≤ a then bytes[a - base]? else none

end Bpftime


namespace Bpftime

/-! ## Byte codec lemmas -/

theorem leBytes_length (n v : Nat) : (leBytes n v).length = n := by
  induction n generalizing v with
  | zero => rfl
  | succ k ih => simp [leBytes, ih]

theorem leValue_leBytes (n v : Nat) : leValue (leBytes n v) = v % 256 ^ n := by
  induction n generalizing v with
  | zero => simp [leBytes, leValue, Nat.mod_one]
  | succ k ih =>
    simp only [leBytes, leValue, ih, Byte.ofNat]
    rw [pow_succ, Nat.mod_mul_left_div_self v 256 (256 ^ k) |>.symm]
    have := Nat.mod_add_div (v % (256 * 256 ^ k)) 256
    rw [Nat.mod_mul_right_mod] at this
    rw [mul_comm (256 ^ k) 256]
    exact this

theorem leValue_lt (bs : List Byte) : leValue bs < 256 ^ bs.length := by
  induction bs with
  | nil => simp [leValue]
  | cons b bs ih =>
    simp only [leValue, List.length_cons, pow_succ]
    have := b.isLt
    omega

theorem copy_from_user_length (mem : UserMem) (n addr : Nat) (bs : List Byte)
    (h : copy_from_user mem addr n = some bs) : bs.length = n := by
  induction n generalizing addr bs with
  | zero => simp [copy_from_user] at h; simp [← h]
  | succ k ih =>
    simp only [copy_from_user] at h
    split at h
    · rename_i b bs1 _ h2
      simp only [Option.some.injEq] at h
      subst h
      simp [ih _ _ h2]
    · simp at h

theorem bpf_core_read_user_lt (mem : UserMem) (sz src : Nat) :
    bpf_core_read_user mem sz src < 256 ^ sz := by
  unfold bpf_core_read_user
  split
  · rename_i bs h
    have := leValue_lt bs
    rwa [copy_from_user_length mem sz src bs h] at this
  · exact Nat.pow_pos (by decide)

theorem decode_encode (ev : TimexEvent) (h1 : ev.freq < 2 ^ 64) (h2 : ev.tick < 2 ^ 64)
    (h3 : ev.status.R < 2 ^ 32) (h4 : ev.modes < 2 ^ 32) (h5 : ev.esterror < 2 ^ 64) :
    TimexEvent.decode ev.encode = ev := by
  obtain ⟨f, t, ⟨r⟩, m, e⟩ := ev
  simp only at h1 h2 h3 h4 h5
  have l8 : ∀ v, (leBytes 8 v).length = 8 := leBytes_length 8
  have l4 : ∀ v, (leBytes 4 v).length = 4 := leBytes_length 4
  simp only [TimexEvent.decode, TimexEvent.encode, List.append_assoc]
  have e1 : List.take 8 (leBytes 8 f ++ (leBytes 8 t ++ (leBytes 4 r ++ (leBytes 4 m ++ leBytes 8 e))))
      = leBytes 8 f := List.take_left' (l8 f)
  have d1 : List.drop 8 (leBytes 8 f ++ (leBytes 8 t ++ (leBytes 4 r ++ (leBytes 4 m ++ leBytes 8 e))))
      = leBytes 8 t ++ (leBytes 4 r ++ (leBytes 4 m ++ leBytes 8 e)) := List.drop_left' (l8 f)
  have d2 : List.drop 16 (leBytes 8 f ++ (leBytes 8 t ++ (leBytes 4 r ++ (leBytes 4 m ++ leBytes 8 e))))
      = leBytes 4 r ++ (leBytes 4 m ++ leBytes 8 e) := by
    rw [show 16 = 8 + 8 from rfl, ← List.drop_drop, d1, List.drop_left' (l8 t)]
  have d3 : List.drop 20 (leBytes 8 f ++ (leBytes 8 t ++ (leBytes 4 r ++ (leBytes 4 m ++ leBytes 8 e))))
      = leBytes 4 m ++ leBytes 8 e := by
    rw [show 20 = 16 + 4 from rfl, ← List.drop_drop, d2, List.drop_left' (l4 r)]
  have d4 : List.drop 24 (leBytes 8 f ++ (leBytes 8 t ++ (leBytes 4 r ++ (leBytes 4 m ++ leBytes 8 e))))
      = leBytes 8 e := by
    rw [show 24 = 20 + 4 from rfl, ← List.drop_drop, d3, List.drop_left' (l4 m)]
  rw [e1, d1, d2, d3, d4, List.take_left' (l8 t), List.take_left' (l4 r), List.take_left' (l4 m),
    List.take_of_length_le (le_of_eq (l8 e))]
  simp only [leValue_leBytes]
  rw [Nat.mod_eq_of_lt (by norm_num; omega), Nat.mod_eq_of_lt (by norm_num; omega),
    Nat.mod_eq_of_lt (by norm_num; omega), Nat.mod_eq_of_lt (by norm_num; omega),
    Nat.mod_eq_of_lt (by norm_num; omega)]

theorem encode_length (ev : TimexEvent) : ev.encode.length = sizeof_TimexEvent := by
  simp [TimexEvent.encode, leBytes_length, sizeof_TimexEvent]

theorem newRecords_self (rb : RingBuf) : newRecords rb rb = [] := by
  simp [newRecords]

theorem reserve_records (rb rb1 : RingBuf) (size : Nat) (h : bpf_ringbuf_reserve rb size = some rb1) :
    rb1.records = rb.records := by
  unfold bpf_ringbuf_reserve at h
  simp only at h
  split at h
  · simp at h
  · split at h
    · simp at h
    · simp only [Option.some.injEq] at h
      rw [← h]

theorem newRecords_submit (rb rb1 : RingBuf) (size : Nat) (data : List Byte)
    (h : bpf_ringbuf_reserve rb size = some rb1) :
    newRecords rb (bpf_ringbuf_submit rb1 data) = [data] := by
  simp [newRecords, bpf_ringbuf_submit, reserve_records rb rb1 size h]

theorem interesting_mask : ADJ_INTERESTING = 0x411B := by decide

end Bpftime

namespace Bpftime

/-! ## The hooks -/

theorem clock_adjtime_enter_eq (L : KernelLayout) (mem : UserMem)
    (ctx : trace_event_raw_sys_enter) (st : BpfState) :
    clock_adjtime_enter L mem ctx st =
      if toInt32 (ctx.args 0) ≠ CLOCK_REALTIME ∨ ctx.args 1 = 0 then st
      else if adjtime_modes L mem ctx &&& ADJ_INTERESTING = 0 then st
      else match bpf_ringbuf_reserve st.clock_events sizeof_TimexEvent with
        | none => st
        | some rb =>
          { st with clock_events := (bpf_ringbuf_submit rb
              (adjtime_event L mem (ctx.args 1) (adjtime_modes L mem ctx)).encode) } := by
  unfold clock_adjtime_enter adjtime_modes
  simp only
  split
  · rfl
  · split
    · rfl
    · split
      · rfl
      · simp only [adjtime_event, TimexEvent.zero]
        congr 3
        split <;> split <;> split <;> split <;> rfl

theorem clock_settime_enter_eq (L : KernelLayout) (mem : UserMem)
    (ctx : trace_event_raw_sys_enter) (st : BpfState) :
    clock_settime_enter L mem ctx st =
      if toInt32 (ctx.args 0) ≠ CLOCK_REALTIME ∨ ctx.args 1 = 0 then st
      else if settime_tv_nsec L mem ctx < 0 ∨ settime_tv_nsec L mem ctx > 999999999 then st
      else match bpf_ringbuf_reserve st.clock_events sizeof_TimexEvent with
        | none => st
        | some rb => { st with clock_events := bpf_ringbuf_submit rb settime_event.encode } := by
  rfl

theorem adjtime_event_decode (L : KernelLayout) (mem : UserMem) (tx modes : Nat)
    (hm : modes < 2 ^ 32) :
    TimexEvent.decode (adjtime_event L mem tx modes).encode = adjtime_event L mem tx modes := by
  have h8 := fun a => bpf_core_read_user_lt mem 8 a
  have h4 := fun a => bpf_core_read_user_lt mem 4 a
  norm_num at h8 h4
  apply decode_encode
  · simp only [adjtime_event]; split
    · exact h8 _
    · norm_num
  · simp only [adjtime_event]; split
    · exact h8 _
    · norm_num
  · simp only [adjtime_event]; split
    · exact h4 _
    · norm_num
  · exact hm
  · simp only [adjtime_event]; split
    · exact h8 _
    · norm_num

theorem adjtime_modes_lt (L : KernelLayout) (mem : UserMem) (ctx : trace_event_raw_sys_enter) :
    adjtime_modes L mem ctx < 2 ^ 32 := by
  have := bpf_core_read_user_lt mem 4 (fieldAddr (ctx.args 1) L.timex_modes)
  norm_num at this
  simpa [adjtime_modes] using this

end Bpftime

namespace Bpftime

/-! ## Claims about the probe -/

/-- C1, as stated, is false: for the call `clock_adjtime(-29, utx)` on a dynamic clock
that returns 0, the clock-id differs from the realtime clock, the entry context really
carries that clock-id, and `clock_adjtime_exit` still commits one record, the return
value 0, on `status_events`. -/
theorem C1_exit_hook_reports_other_clock :
    ptpCall.which_clock ≠ CLOCK_REALTIME ∧
    toInt32 (ptpCall.enter_ctx.args 0) = ptpCall.which_clock ∧
    newRecords (BpfState.init 1).status_events
      (clock_adjtime_exit 0 ptpCall.exit_ctx (BpfState.init 1)).status_events
      = [leBytes sizeof_long 0] := by
  decide

/-- C1, amended: for every clock-id other than the realtime clock and every other
input, `clock_adjtime_enter` and `clock_settime_enter` leave all maps as they are (no
reservation, no record); `clock_adjtime_exit`, whose context carries no clock-id,
never touches `clock_events`, and two calls with the same return value get the same
treatment whatever their clock-ids are. -/
theorem C1_enter_hooks_skip_other_clocks (L : KernelLayout) (mem : UserMem)
    (ctx : trace_event_raw_sys_enter) (cpu : Nat) (c1 c2 : ClockAdjtimeCall) (st : BpfState)
    (hclk : toInt32 (ctx.args 0) ≠ CLOCK_REALTIME) (hret : c1.ret = c2.ret) :
    clock_adjtime_enter L mem ctx st = st ∧
    clock_settime_enter L mem ctx st = st ∧
    (clock_adjtime_exit cpu c1.exit_ctx st).clock_events = st.clock_events ∧
    clock_adjtime_exit cpu c1.exit_ctx st = clock_adjtime_exit cpu c2.exit_ctx st := by
  refine ⟨?_, ?_, ?_, ?_⟩
  · rw [clock_adjtime_enter_eq, if_pos (Or.inl hclk)]
  · rw [clock_settime_enter_eq, if_pos (Or.inl hclk)]
  · unfold clock_adjtime_exit
    simp only
    split
    · rfl
    · split
      · rfl
      · split <;> rfl
  · simp only [ClockAdjtimeCall.exit_ctx, hret]

/-- Witness for C1 amended: the dynamic-clock call against a second call on the
monotonic clock, both returning 0, on freshly loaded maps. -/
theorem C1_enter_hooks_skip_other_clocks_witness :
    toInt32 (ptpCall.enter_ctx.args 0) ≠ CLOCK_REALTIME ∧
    clock_adjtime_enter KernelLayout.x86_64 (timexMem 2) ptpCall.enter_ctx (BpfState.init 1)
      = BpfState.init 1 ∧
    clock_settime_enter KernelLayout.x86_64 (timexMem 2) ptpCall.enter_ctx (BpfState.init 1)
      = BpfState.init 1 ∧
    (clock_adjtime_exit 0 ptpCall.exit_ctx (BpfState.init 1)).clock_events
      = (BpfState.init 1).clock_events ∧
    clock_adjtime_exit 0 ptpCall.exit_ctx (BpfState.init 1)
      = clock_adjtime_exit 0 (ClockAdjtimeCall.exit_ctx ⟨1, 0, 0⟩) (BpfState.init 1) :=
  ⟨by decide, C1_enter_hooks_skip_other_clocks KernelLayout.x86_64 (timexMem 2)
    ptpCall.enter_ctx 0 ptpCall ⟨1, 0, 0⟩ (BpfState.init 1) (by decide) rfl⟩

/-- C2: whenever the `modes` value read from the user structure has no bit in common
with the mask 0x411B (tick, frequency, status, offset, set-offset, estimated error),
`clock_adjtime_enter` returns with all maps as they were, so nothing is reserved on
`clock_events`; this holds for every clock-id, pointer, memory and ring state. -/
theorem C2_adjtime_enter_drops_uninteresting_modes (L : KernelLayout) (mem : UserMem)
    (ctx : trace_event_raw_sys_enter) (st : BpfState)
    (h : adjtime_modes L mem ctx &&& 0x411B = 0) :
    clock_adjtime_enter L mem ctx st = st := by
  rw [clock_adjtime_enter_eq]
  split
  · rfl
  · rw [interesting_mask, if_pos h]

/-- Witness for C2: a call on the realtime clock whose structure has `modes = 0x2004`
(maximum error and nanosecond resolution). -/
theorem C2_adjtime_enter_drops_uninteresting_modes_witness :
    toInt32 (realtimeCtx.args 0) = CLOCK_REALTIME ∧
    adjtime_modes KernelLayout.x86_64 (timexMem 0x2004) realtimeCtx = 0x2004 ∧
    clock_adjtime_enter KernelLayout.x86_64 (timexMem 0x2004) realtimeCtx (BpfState.init 1)
      = BpfState.init 1 :=
  ⟨by decide, by decide, C2_adjtime_enter_drops_uninteresting_modes KernelLayout.x86_64
    (timexMem 0x2004) realtimeCtx (BpfState.init 1) (by decide)⟩

end Bpftime

namespace Bpftime

/-- C3: every record `clock_adjtime_enter` commits on `clock_events` is the image of a
`TimexEvent` whose `modes` is the value read from the user structure and whose `freq`,
`tick`, `status` and `esterror` are zero unless the bit ADJ_FREQUENCY, ADJ_TICK,
ADJ_STATUS, ADJ_ESTERROR respectively is set in that `modes`; this holds for every
content of user memory. -/
theorem C3_adjtime_enter_unflagged_fields_zero (L : KernelLayout) (mem : UserMem)
    (ctx : trace_event_raw_sys_enter) (st : BpfState) (data : List Byte)
    (h : data ∈ newRecords st.clock_events (clock_adjtime_enter L mem ctx st).clock_events) :
    data.length = sizeof_TimexEvent ∧
    (TimexEvent.decode data).encode = data ∧
    (TimexEvent.decode data).modes = adjtime_modes L mem ctx ∧
    ((TimexEvent.decode data).modes &&& ADJ_FREQUENCY = 0 → (TimexEvent.decode data).freq = 0) ∧
    ((TimexEvent.decode data).modes &&& ADJ_TICK = 0 → (TimexEvent.decode data).tick = 0) ∧
    ((TimexEvent.decode data).modes &&& ADJ_STATUS = 0 →
      (TimexEvent.decode data).status = ⟨0⟩) ∧
    ((TimexEvent.decode data).modes &&& ADJ_ESTERROR = 0 →
      (TimexEvent.decode data).esterror = 0) := by
  rw [clock_adjtime_enter_eq] at h
  split at h
  · simp [newRecords_self] at h
  · split at h
    · simp [newRecords_self] at h
    · split at h
      · simp [newRecords_self] at h
      · rename_i rb hrb
        simp only [newRecords_submit _ _ _ _ hrb, List.mem_singleton] at h
        subst h
        rw [adjtime_event_decode L mem _ _ (adjtime_modes_lt L mem ctx)]
        refine ⟨encode_length _, rfl, rfl, ?_, ?_, ?_, ?_⟩ <;>
        · intro hz
          simp only [adjtime_event] at hz ⊢
          rw [if_neg (not_not.mpr hz)]

/-- Witness for C3: a call on the realtime clock with `modes = ADJ_TICK | ADJ_FREQUENCY`,
`freq = 77`, `tick = 9`, on freshly loaded maps. -/
theorem C3_adjtime_enter_unflagged_fields_zero_witness :
    TimexEvent.encode ⟨77, 9, ⟨0⟩, 0x4002, 0⟩ ∈ newRecords (BpfState.init 1).clock_events
      (clock_adjtime_enter KernelLayout.x86_64 (timexMem 0x4002) realtimeCtx
        (BpfState.init 1)).clock_events ∧
    (TimexEvent.decode (TimexEvent.encode ⟨77, 9, ⟨0⟩, 0x4002, 0⟩)).modes
      = adjtime_modes KernelLayout.x86_64 (timexMem 0x4002) realtimeCtx ∧
    (TimexEvent.decode (TimexEvent.encode ⟨77, 9, ⟨0⟩, 0x4002, 0⟩)).status = ⟨0⟩ ∧
    (TimexEvent.decode (TimexEvent.encode ⟨77, 9, ⟨0⟩, 0x4002, 0⟩)).esterror = 0 :=
  have w := C3_adjtime_enter_unflagged_fields_zero KernelLayout.x86_64 (timexMem 0x4002)
    realtimeCtx (BpfState.init 1) (TimexEvent.encode ⟨77, 9, ⟨0⟩, 0x4002, 0⟩) (by decide)
  ⟨by decide, w.2.2.1, w.2.2.2.2.2.1 (by decide), w.2.2.2.2.2.2 (by decide)⟩

/-- C4, as stated, is false: on the realtime clock with a non-null pointer and
`tv_nsec = 500`, a full `clock_events` ring makes `clock_settime_enter` return without
committing any record. -/
theorem C4_settime_enter_drops_on_full_ring :
    toInt32 (realtimeCtx.args 0) = CLOCK_REALTIME ∧ realtimeCtx.args 1 ≠ 0 ∧
    settime_tv_nsec KernelLayout.x86_64 timespec500 realtimeCtx = 500 ∧
    bpf_ringbuf_reserve clockRingFull.clock_events sizeof_TimexEvent = none ∧
    newRecords clockRingFull.clock_events
      (clock_settime_enter KernelLayout.x86_64 timespec500 realtimeCtx
        clockRingFull).clock_events = [] := by
  decide

/-- C4, amended: on the realtime clock with a non-null pointer, let `v` be the
`tv_nsec` the hook reads.  If `0 ≤ v ≤ 999999999` and the reservation on `clock_events`
succeeds, exactly one record is committed there: the image of the `TimexEvent` with
`modes = ADJ_STATUS | ADJ_SETOFFSET`, `status = STA_UNSYNC` (unsynchronized flag set)
and all other fields zero, and the other maps are untouched.  If the reservation fails,
or if `v < 0` or `v > 999999999`, all maps stay as they were. -/
theorem C4_settime_enter_valid_nsec (L : KernelLayout) (mem : UserMem)
    (ctx : trace_event_raw_sys_enter) (st : BpfState)
    (hclk : toInt32 (ctx.args 0) = CLOCK_REALTIME) (hp : ctx.args 1 ≠ 0) :
    (0 ≤ settime_tv_nsec L mem ctx ∧ settime_tv_nsec L mem ctx ≤ 999999999 →
      (bpf_ringbuf_reserve st.clock_events sizeof_TimexEvent).isSome →
        newRecords st.clock_events (clock_settime_enter L mem ctx st).clock_events
          = [settime_event.encode] ∧
        TimexEvent.decode settime_event.encode
          = ⟨0, 0, ⟨STA_UNSYNC⟩, ADJ_STATUS ||| ADJ_SETOFFSET, 0⟩ ∧
        (TimexEvent.decode settime_event.encode).status.B.clock_unsynchronized = true ∧
        (clock_settime_enter L mem ctx st).status_events = st.status_events ∧
        (clock_settime_enter L mem ctx st).last_ret = st.last_ret) ∧
    (bpf_ringbuf_reserve st.clock_events sizeof_TimexEvent = none →
      clock_settime_enter L mem ctx st = st) ∧
    (settime_tv_nsec L mem ctx < 0 ∨ settime_tv_nsec L mem ctx > 999999999 →
      clock_settime_enter L mem ctx st = st) := by
  have hc : ¬ (toInt32 (ctx.args 0) ≠ CLOCK_REALTIME ∨ ctx.args 1 = 0) := by
    rintro (h | h)
    · exact h hclk
    · exact hp h
  refine ⟨?_, ?_, ?_⟩
  · rintro ⟨h0, h1⟩ hres
    have hv : ¬ (settime_tv_nsec L mem ctx < 0 ∨ settime_tv_nsec L mem ctx > 999999999) := by
      omega
    rw [clock_settime_enter_eq, if_neg hc, if_neg hv]
    obtain ⟨rb, hrb⟩ := Option.isSome_iff_exists.mp hres
    rw [hrb]
    exact ⟨newRecords_submit _ _ _ _ hrb, by decide, by decide, rfl, rfl⟩
  · intro hres
    rw [clock_settime_enter_eq, hres]
    split
    · rfl
    · split <;> rfl
  · intro hv
    rw [clock_settime_enter_eq, if_neg hc, if_pos hv]

/-- Witness for C4 amended: `tv_nsec = 500` on freshly loaded maps. -/
theorem C4_settime_enter_valid_nsec_witness :
    settime_tv_nsec KernelLayout.x86_64 timespec500 realtimeCtx = 500 ∧
    newRecords (BpfState.init 1).clock_events
      (clock_settime_enter KernelLayout.x86_64 timespec500 realtimeCtx
        (BpfState.init 1)).clock_events = [settime_event.encode] ∧
    (clock_settime_enter KernelLayout.x86_64 timespec500 realtimeCtx clockRingFull
      = clockRingFull) :=
  have w := C4_settime_enter_valid_nsec KernelLayout.x86_64 timespec500 realtimeCtx
  ⟨by decide, ((w (BpfState.init 1) (by decide) (by decide)).1 (by decide) (by decide)).1,
    (w clockRingFull (by decide) (by decide)).2.1 (by decide)⟩

end Bpftime

namespace Bpftime

theorem decodeLong_leBytes (r : Int) (h0 : 0 ≤ r) (h1 : r < 2 ^ 63) :
    decodeLong (leBytes sizeof_long (ofInt64 r)) = r := by
  have hl : ∀ v, (leBytes 8 v).length ≤ 8 := fun v => le_of_eq (leBytes_length 8 v)
  obtain ⟨n, rfl⟩ := Int.eq_ofNat_of_zero_le h0
  have hn : n < 2 ^ 63 := by exact_mod_cast h1
  have ho : ofInt64 (n : Int) = n := by
    unfold ofInt64
    rw [Int.emod_eq_of_lt h0 (by omega), Int.toNat_ofNat]
  have e0 : (256 : Nat) ^ 8 = 2 ^ 64 := by norm_num
  have e1 : n % 256 ^ 8 = n := Nat.mod_eq_of_lt (by rw [e0]; omega)
  have e2 : n % 2 ^ 64 = n := Nat.mod_eq_of_lt (by omega)
  simp only [decodeLong, sizeof_long, ho, List.take_of_length_le (hl n), leValue_leBytes, toInt64]
  rw [e1, e2, if_pos hn]

set_option maxRecDepth 20000 in
/-- C5, as stated, is false: with a full `status_events` ring the return value 1 updates
the per-CPU slot to 1 but no StatusEvent is committed. -/
theorem C5_adjtime_exit_drops_on_full_ring :
    (0 : Int) ≤ (⟨NR_clock_adjtime, 1⟩ : trace_event_raw_sys_exit).ret ∧
    bpf_ringbuf_reserve statusRingFull.status_events sizeof_long = none ∧
    newRecords statusRingFull.status_events
      (clock_adjtime_exit 0 ⟨NR_clock_adjtime, 1⟩ statusRingFull).status_events = [] ∧
    (clock_adjtime_exit 0 ⟨NR_clock_adjtime, 1⟩ statusRingFull).last_ret = [1] := by
  decide

/-- C5, amended: a negative return value leaves all maps unchanged (no StatusEvent, slot
untouched).  For a non-negative return value `r` on a CPU whose `last_ret` lookup
succeeds, the slot of that CPU becomes `r` whatever it held before and `clock_events` is
untouched; exactly one StatusEvent, the 8 bytes of `r`, is committed on `status_events`
when the reservation there succeeds, and none when it fails.  When the lookup fails all
maps stay unchanged. -/
theorem C5_adjtime_exit_reports_nonnegative (cpu : Nat) (ctx : trace_event_raw_sys_exit)
    (st : BpfState) :
    (ctx.ret < 0 → clock_adjtime_exit cpu ctx st = st) ∧
    (0 ≤ ctx.ret → cpu < st.last_ret.length →
      (clock_adjtime_exit cpu ctx st).last_ret = st.last_ret.set cpu ctx.ret ∧
      (clock_adjtime_exit cpu ctx st).last_ret[cpu]? = some ctx.ret ∧
      (clock_adjtime_exit cpu ctx st).clock_events = st.clock_events ∧
      ((bpf_ringbuf_reserve st.status_events sizeof_long).isSome →
        newRecords st.status_events (clock_adjtime_exit cpu ctx st).status_events
          = [leBytes sizeof_long (ofInt64 ctx.ret)] ∧
        (ctx.ret < 2 ^ 63 → decodeLong (leBytes sizeof_long (ofInt64 ctx.ret)) = ctx.ret)) ∧
      (bpf_ringbuf_reserve st.status_events sizeof_long = none →
        (clock_adjtime_exit cpu ctx st).status_events = st.status_events)) ∧
    (0 ≤ ctx.ret → st.last_ret.length ≤ cpu → clock_adjtime_exit cpu ctx st = st) := by
  refine ⟨?_, ?_, ?_⟩
  · intro h
    simp only [clock_adjtime_exit, if_pos h]
  · intro h hcpu
    have hn : ¬ ctx.ret < 0 := by omega
    have hl : bpf_map_lookup_elem st.last_ret cpu 0 = some (st.last_ret.get ⟨cpu, hcpu⟩) := by
      simp [bpf_map_lookup_elem, List.getElem?_eq_getElem hcpu]
    have hset : (st.last_ret.set cpu ctx.ret)[cpu]? = some ctx.ret := by
      simp [List.getElem?_set, hcpu]
    simp only [clock_adjtime_exit, if_neg hn, hl]
    cases hres : bpf_ringbuf_reserve st.status_events sizeof_long with
    | none => simp [hset]
    | some rb =>
      simp only [hset, Option.isSome_some, true_implies, false_implies, and_true, true_and,
        reduceCtorEq]
      exact ⟨newRecords_submit _ _ _ _ hres, fun h1 => decodeLong_leBytes _ h h1⟩
  · intro h hcpu
    have hn : ¬ ctx.ret < 0 := by omega
    have hl : bpf_map_lookup_elem st.last_ret cpu 0 = none := by
      simp [bpf_map_lookup_elem, List.getElem?_eq_none hcpu]
    simp only [clock_adjtime_exit, if_neg hn, hl]

/-- Witness for C5 amended: return value -22 and return value 5 on freshly loaded maps,
and return value 0 (equal to the slot's previous value) as well. -/
theorem C5_adjtime_exit_reports_nonnegative_witness :
    clock_adjtime_exit 0 ⟨NR_clock_adjtime, -22⟩ (BpfState.init 1) = BpfState.init 1 ∧
    (clock_adjtime_exit 0 ⟨NR_clock_adjtime, 5⟩ (BpfState.init 1)).last_ret[0]? = some 5 ∧
    newRecords (BpfState.init 1).status_events
      (clock_adjtime_exit 0 ⟨NR_clock_adjtime, 0⟩ (BpfState.init 1)).status_events
      = [leBytes sizeof_long (ofInt64 0)] ∧
    clock_adjtime_exit 3 ⟨NR_clock_adjtime, 5⟩ (BpfState.init 1) = BpfState.init 1 :=
  ⟨(C5_adjtime_exit_reports_nonnegative 0 ⟨NR_clock_adjtime, -22⟩ (BpfState.init 1)).1
      (by decide),
    ((C5_adjtime_exit_reports_nonnegative 0 ⟨NR_clock_adjtime, 5⟩ (BpfState.init 1)).2.1
      (by decide) (by decide)).2.1,
    (((C5_adjtime_exit_reports_nonnegative 0 ⟨NR_clock_adjtime, 0⟩ (BpfState.init 1)).2.1
      (by decide) (by decide)).2.2.2.1 (by decide)).1,
    (C5_adjtime_exit_reports_nonnegative 3 ⟨NR_clock_adjtime, 5⟩ (BpfState.init 1)).2.2
      (by decide) (by decide)⟩

end Bpftime

namespace Bpftime

/-! ## Claims about the userspace side -/

/-- C6: for every record type `T`, handler, record bytes and length handed to
`RingBuffer<T>::Callback`: when the length differs from `sizeof(T)` the callback returns
0 and the handler is not run (the caller's state is unchanged, no call is noted); when
the length equals `sizeof(T)` the callback returns 0 and the handler has run exactly
once, on the value decoded from the record's bytes. -/
theorem C6_callback_checks_record_size {T σ : Type} (rt : RecordType T) (handler : T → σ → σ)
    (data : List Byte) (size : Nat) (s : σ) (calls : List T) :
    (size ≠ rt.sizeof →
      RingBuffer.Callback rt handler data size s = (0, s) ∧
      RingBuffer.Callback rt recordCall data size calls = (0, calls)) ∧
    (size = rt.sizeof →
      RingBuffer.Callback rt handler data size s = (0, handler (rt.decode data) s) ∧
      RingBuffer.Callback rt recordCall data size calls = (0, calls ++ [rt.decode data])) := by
  constructor
  · intro h
    simp [RingBuffer.Callback, h]
  · intro h
    simp [RingBuffer.Callback, h, recordCall]

/-- Witness for C6: a 3-byte record and a 32-byte record handed to the callback of
`RingBuffer<TimexEvent>`. -/
theorem C6_callback_checks_record_size_witness :
    RingBuffer.Callback RecordType.timexEvent recordCall [1, 2, 3] 3 [] = (0, []) ∧
    RingBuffer.Callback RecordType.timexEvent recordCall settime_event.encode 32
      [TimexEvent.zero] = (0, [TimexEvent.zero] ++ [TimexEvent.decode settime_event.encode]) :=
  ⟨((C6_callback_checks_record_size RecordType.timexEvent recordCall [1, 2, 3] 3
      ([] : List TimexEvent) []).1 (by decide)).2,
    ((C6_callback_checks_record_size RecordType.timexEvent recordCall settime_event.encode 32
      [TimexEvent.zero] [TimexEvent.zero]).2 (by decide)).2⟩

theorem ringbuf_process_snoc {T σ : Type} (rt : RecordType T) (handler : T → σ → σ)
    (rs : List (List Byte)) (r : List Byte) (cnt : Int) (s : σ) (hc : 0 ≤ cnt) :
    ringbuf_process (RingBuffer.Callback rt handler) (rs ++ [r]) cnt s =
      ((ringbuf_process (RingBuffer.Callback rt handler) rs cnt s).1 + 1,
        (RingBuffer.Callback rt handler r r.length
          (ringbuf_process (RingBuffer.Callback rt handler) rs cnt s).2).2) ∧
    0 ≤ (ringbuf_process (RingBuffer.Callback rt handler) rs cnt s).1 := by
  induction rs generalizing cnt s with
  | nil =>
    simp only [List.nil_append, ringbuf_process]
    by_cases h : r.length = rt.sizeof
    · simp [RingBuffer.Callback, h, hc]
    · simp [RingBuffer.Callback, h, hc]
  | cons a as ih =>
    simp only [List.cons_append, ringbuf_process]
    by_cases h : a.length = rt.sizeof
    · simpa [RingBuffer.Callback, h] using ih (cnt + 1) _ (by omega)
    · simpa [RingBuffer.Callback, h] using ih (cnt + 1) _ (by omega)

/-- C7, as stated, is false: a `clock_settime` call on the realtime clock with a non-null
pointer and `tv_nsec = 500` that finds `clock_events` full commits no record, so nothing
of this call reaches the handler: consuming what the call committed runs the handler
zero times. -/
theorem C7_settime_500_full_ring_delivers_nothing :
    toInt32 ((enterCtx 227 CLOCK_REALTIME 4096).args 0) = CLOCK_REALTIME ∧
    (enterCtx 227 CLOCK_REALTIME 4096).args 1 ≠ 0 ∧
    settime_tv_nsec KernelLayout.x86_64 timespec500 (enterCtx 227 CLOCK_REALTIME 4096) = 500 ∧
    (clock_settime_enter KernelLayout.x86_64 timespec500 (enterCtx 227 CLOCK_REALTIME 4096)
      clockRingFull).clock_events = clockRingFull.clock_events ∧
    ringbuf_process (RingBuffer.Callback RecordType.timexEvent recordCall)
      (newRecords clockRingFull.clock_events
        (clock_settime_enter KernelLayout.x86_64 timespec500 (enterCtx 227 CLOCK_REALTIME 4096)
          clockRingFull).clock_events) 0 [] = (0, []) := by
  decide

/-- C7, amended: end to end, for every state of the maps in which the reservation on
`clock_events` succeeds, as it does on freshly loaded maps.  A `clock_settime` call on
the realtime clock with a non-null pointer whose `tv_nsec` reads 500 makes
`clock_settime_enter` commit exactly one record behind those already waiting; its
length is `sizeof(TimexEvent)`, so `RingBuffer<TimexEvent>::Callback` accepts it and runs
the handler on `TimexEvent{modes = 0x0110, status = 0x40, freq = 0, tick = 0,
esterror = 0}`, whose only status flag is the unsynchronized one; consuming the ring
runs the handler on the records that were waiting and then exactly once more, on that
event.  When the reservation fails the call leaves the maps unchanged. -/
theorem C7_settime_500_end_to_end (L : KernelLayout) (mem : UserMem)
    (ctx : trace_event_raw_sys_enter) (st : BpfState) (calls : List TimexEvent)
    (hclk : toInt32 (ctx.args 0) = CLOCK_REALTIME) (htp : ctx.args 1 ≠ 0)
    (hns : settime_tv_nsec L mem ctx = 500) :
    ((bpf_ringbuf_reserve st.clock_events sizeof_TimexEvent).isSome →
      (clock_settime_enter L mem ctx st).clock_events.records
        = st.clock_events.records ++ [settime_event.encode] ∧
      newRecords st.clock_events (clock_settime_enter L mem ctx st).clock_events
        = [settime_event.encode] ∧
      settime_event.encode.length = RecordType.timexEvent.sizeof ∧
      RingBuffer.Callback RecordType.timexEvent recordCall settime_event.encode
        settime_event.encode.length calls = (0, calls ++ [⟨0, 0, ⟨0x40⟩, 0x0110, 0⟩]) ∧
      RingBuffer.consume RecordType.timexEvent recordCall
        (clock_settime_enter L mem ctx st).clock_events calls
        = ((RingBuffer.consume RecordType.timexEvent recordCall st.clock_events calls).1 + 1,
           (RingBuffer.consume RecordType.timexEvent recordCall st.clock_events calls).2
             ++ [⟨0, 0, ⟨0x40⟩, 0x0110, 0⟩]) ∧
      (⟨0x40⟩ : TimexStatus).B = onlyUnsync ∧
      StatusToString ⟨0x40⟩ = "UNSYNC") ∧
    (∀ ncpu, (bpf_ringbuf_reserve (BpfState.init ncpu).clock_events sizeof_TimexEvent).isSome ∧
      RingBuffer.consume RecordType.timexEvent recordCall (BpfState.init ncpu).clock_events
        calls = (0, calls)) ∧
    (bpf_ringbuf_reserve st.clock_events sizeof_TimexEvent = none →
      clock_settime_enter L mem ctx st = st) := by
  have hc : ¬ (toInt32 (ctx.args 0) ≠ CLOCK_REALTIME ∨ ctx.args 1 = 0) := by
    rintro (h | h)
    · exact h hclk
    · exact htp h
  have hv : ¬ (settime_tv_nsec L mem ctx < 0 ∨ settime_tv_nsec L mem ctx > 999999999) := by
    rw [hns]; decide
  have hcb : ∀ cs : List TimexEvent,
      RingBuffer.Callback RecordType.timexEvent recordCall settime_event.encode
        settime_event.encode.length cs = (0, cs ++ [⟨0, 0, ⟨0x40⟩, 0x0110, 0⟩]) := by
    intro cs
    have hlen : settime_event.encode.length = RecordType.timexEvent.sizeof := by decide
    have hdec : RecordType.timexEvent.decode settime_event.encode
        = ⟨0, 0, ⟨0x40⟩, 0x0110, 0⟩ := by decide
    simp [RingBuffer.Callback, hlen, hdec, recordCall]
  refine ⟨?_, ?_, ?_⟩
  · intro hres
    obtain ⟨rb, hrb⟩ := Option.isSome_iff_exists.mp hres
    have hrec : (clock_settime_enter L mem ctx st).clock_events.records
        = st.clock_events.records ++ [settime_event.encode] := by
      rw [clock_settime_enter_eq, if_neg hc, if_neg hv, hrb]
      simp [bpf_ringbuf_submit, reserve_records _ _ _ hrb]
    refine ⟨hrec, ?_, by decide, hcb calls, ?_, by decide, by decide⟩
    · simp [newRecords, hrec]
    · unfold RingBuffer.consume
      rw [hrec, (ringbuf_process_snoc RecordType.timexEvent recordCall _ _ 0 calls
        (le_refl 0)).1, hcb]
  · intro ncpu
    exact ⟨rfl, rfl⟩
  · intro hres
    rw [clock_settime_enter_eq, if_neg hc, if_neg hv, hres]

/-- Witness for C7 amended: the user structure `{tv_sec = 7, tv_nsec = 500}` at address
4096 on an x86_64 machine with one CPU, on freshly loaded maps and on a ring with room
whose positions have advanced. -/
theorem C7_settime_500_end_to_end_witness :
    settime_tv_nsec KernelLayout.x86_64 timespec500 (enterCtx 227 CLOCK_REALTIME 4096) = 500 ∧
    RingBuffer.consume RecordType.timexEvent recordCall
      (clock_settime_enter KernelLayout.x86_64 timespec500 (enterCtx 227 CLOCK_REALTIME 4096)
        (BpfState.init 1)).clock_events []
      = ((RingBuffer.consume RecordType.timexEvent recordCall
            (BpfState.init 1).clock_events []).1 + 1,
          (RingBuffer.consume RecordType.timexEvent recordCall
            (BpfState.init 1).clock_events []).2 ++ [⟨0, 0, ⟨0x40⟩, 0x0110, 0⟩]) ∧
    newRecords (⟨KB 4, 40, 40, []⟩ : RingBuf)
      (clock_settime_enter KernelLayout.x86_64 timespec500 (enterCtx 227 CLOCK_REALTIME 4096)
        ⟨⟨KB 4, 40, 40, []⟩, ⟨KB 4, 0, 0, []⟩, [0]⟩).clock_events = [settime_event.encode] :=
  ⟨by decide,
    ((C7_settime_500_end_to_end KernelLayout.x86_64 timespec500
      (enterCtx 227 CLOCK_REALTIME 4096) (BpfState.init 1) [] (by decide) (by decide)
      (by decide)).1 (by decide)).2.2.2.2.1,
    ((C7_settime_500_end_to_end KernelLayout.x86_64 timespec500
      (enterCtx 227 CLOCK_REALTIME 4096) ⟨⟨KB 4, 40, 40, []⟩, ⟨KB 4, 0, 0, []⟩, [0]⟩ []
      (by decide) (by decide) (by decide)).1 (by decide)).2.1⟩

/-- C8 fails on the code: with no signal blocked beforehand, constructing a
`SignalHandler` for SIGINT and SIGTERM and destroying it leaves both signals blocked;
with SIGUSR1 (10) blocked beforehand and a handler for SIGINT, the life of the object
ends with SIGUSR1 unblocked and SIGINT blocked.  In neither case is the mask the one
that was active before construction. -/
theorem C8_destructor_leaves_other_mask :
    (SignalHandler.lifetime [SIGINT, SIGTERM] 3 0 ⟨∅, ∅⟩).blocked = {2, 15} ∧
    (SignalHandler.lifetime [SIGINT, SIGTERM] 3 0 ⟨∅, ∅⟩).blocked ≠ ∅ ∧
    (SignalHandler.lifetime [SIGINT] 3 0 ⟨{10}, ∅⟩).blocked = {2} ∧
    (SignalHandler.lifetime [SIGINT] 3 0 ⟨{10}, ∅⟩).blocked ≠ {10} := by
  decide

/-- C9: for every outcome of the `read`, `consume` returns no event exactly when the read
returned -1 with `errno = EAGAIN`, returns the signal-info record (the content of the
buffer) exactly when the read returned `sizeof(signalfd_siginfo)`, and throws
`SignalError` exactly in all other cases. -/
theorem C9_consume_outcomes (r : ReadResult) :
    (SignalHandler.consume r = .ok none ↔ (r.s = -1 ∧ r.errno = EAGAIN)) ∧
    (SignalHandler.consume r = .ok (some r.fdsi) ↔ r.s = sizeof_signalfd_siginfo) ∧
    ((∃ x, SignalHandler.consume r = .ok (some x)) ↔ r.s = sizeof_signalfd_siginfo) ∧
    ((∃ e, SignalHandler.consume r = .error e) ↔
      (¬ (r.s = -1 ∧ r.errno = EAGAIN) ∧ r.s ≠ sizeof_signalfd_siginfo)) := by
  have h128 : sizeof_signalfd_siginfo = 128 := rfl
  unfold SignalHandler.consume
  simp only [h128]
  by_cases h1 : r.s = -1
  · by_cases h2 : r.errno = EAGAIN
    · simp [h1, h2]
    · simp [h1, h2]
  · by_cases h3 : r.s = 128
    · simp [h3]
    · simp [h1, h3]

end Bpftime

namespace Bpftime

/-! ## `StatusToString` -/

theorem StatusToString_eq (st : TimexStatus) :
    StatusToString st = finishFlags (appendFlags (flagTests st.R 0 flagTable) "") := by
  rfl

theorem appendFlags_data (R : Nat) (ns : List String) (i : Nat) (out : String) :
    (appendFlags (flagTests R i ns) out).data = out.data ++ barred (setFlagsFrom R i ns) := by
  induction ns generalizing i out with
  | nil => simp [flagTests, appendFlags, setFlagsFrom, barred]
  | cons n ns ih =>
    simp only [flagTests, appendFlags, setFlagsFrom, addFlag]
    rw [ih]
    by_cases hb : statusBit R i = true
    · simp [hb, barred, String.data_append]
    · simp [hb]

theorem intercalate_go_data (as : List String) (acc : String) :
    (String.intercalate.go acc "|" as).data ++ ['|'] = acc.data ++ '|' :: barred as := by
  induction as generalizing acc with
  | nil => simp [String.intercalate.go, barred]
  | cons a as ih =>
    simp only [String.intercalate.go]
    rw [ih]
    simp [String.data_append, barred]

theorem intercalate_data (n : String) (ns : List String) :
    ("|".intercalate (n :: ns)).data ++ ['|'] = barred (n :: ns) := by
  simp only [String.intercalate, barred]
  exact intercalate_go_data ns n

theorem setFlagsFrom_subset (R : Nat) (ns : List String) (i : Nat) :
    ∀ n ∈ setFlagsFrom R i ns, n ∈ ns := by
  induction ns generalizing i with
  | nil => simp [setFlagsFrom]
  | cons a as ih =>
    intro n hn
    simp only [setFlagsFrom] at hn
    split at hn
    · rcases List.mem_cons.mp hn with h | h
      · simp [h]
      · exact List.mem_cons_of_mem _ (ih _ n h)
    · exact List.mem_cons_of_mem _ (ih _ n hn)

theorem setFlagsFrom_eq_nil (R : Nat) (ns : List String) (i : Nat) :
    setFlagsFrom R i ns = [] ↔ ∀ j, j < ns.length → statusBit R (i + j) = false := by
  induction ns generalizing i with
  | nil => simp [setFlagsFrom]
  | cons a as ih =>
    simp only [setFlagsFrom, List.length_cons]
    constructor
    · intro h j hj
      split at h
      · simp at h
      · rename_i hb
        rcases j with _ | j
        · simpa using hb
        · have := (ih (i + 1)).mp h j (by omega)
          rwa [show i + (j + 1) = i + 1 + j by omega]
    · intro h
      have h0 := h 0 (by omega)
      simp only [Nat.add_zero] at h0
      simp only [h0, Bool.false_eq_true, if_false]
      apply (ih (i + 1)).mpr
      intro j hj
      have := h (j + 1) (by omega)
      rwa [show i + (j + 1) = i + 1 + j by omega] at this

theorem setFlagsFrom_congr (R R2 : Nat) (ns : List String) (i : Nat)
    (h : ∀ j, j < ns.length → statusBit R (i + j) = statusBit R2 (i + j)) :
    setFlagsFrom R i ns = setFlagsFrom R2 i ns := by
  induction ns generalizing i with
  | nil => simp [setFlagsFrom]
  | cons a as ih =>
    have h0 := h 0 (by simp)
    simp only [Nat.add_zero] at h0
    have ht : setFlagsFrom R (i + 1) as = setFlagsFrom R2 (i + 1) as := by
      apply ih
      intro j hj
      have := h (j + 1) (by simp; omega)
      rwa [show i + (j + 1) = i + 1 + j by omega] at this
    simp only [setFlagsFrom, h0, ht]

theorem statusBit_low (R R2 : Nat) (h : R2 % 2 ^ 16 = R % 2 ^ 16) (i : Nat) (hi : i < 16) :
    statusBit R2 i = statusBit R i := by
  unfold statusBit
  have e : ∀ X : Nat, X / 2 ^ i % 2 = X % 2 ^ 16 / 2 ^ i % 2 := by
    intro X
    interval_cases i <;> omega
  rw [e R2, e R, h]

theorem StatusToString_statusText (st : TimexStatus) :
    StatusToString st = statusText st.R := by
  rw [StatusToString_eq]
  have hd := appendFlags_data st.R flagTable 0 ""
  unfold statusText statusFlagNames
  generalize appendFlags (flagTests st.R 0 flagTable) "" = out at hd ⊢
  have hsub := setFlagsFrom_subset st.R flagTable 0
  cases hn : setFlagsFrom st.R 0 flagTable with
  | nil =>
    rw [hn] at hd
    have ho : out = "" := String.ext (by rw [hd]; rfl)
    simp [finishFlags, ho]
  | cons n ns =>
    rw [hn] at hd hsub
    have hne : n ≠ "" := by
      have : ∀ m ∈ flagTable, m ≠ "" := by decide
      exact this n (hsub n (List.mem_cons_self _ _))
    have hnd : n.data ≠ [] := fun h => hne (String.ext h)
    have hd2 : out.data = ("|".intercalate (n :: ns)).data ++ ['|'] := by
      rw [intercalate_data]; simpa using hd
    have ho : out ≠ "" := by
      intro h
      rw [h] at hd2
      simp at hd2
    have hp : pop_back out = "|".intercalate (n :: ns) := by
      unfold pop_back
      rw [hd2, List.dropLast_concat]
    have hi : "|".intercalate (n :: ns) ≠ "" := by
      intro h
      have h2 := intercalate_data n ns
      rw [h] at h2
      simp only [barred] at h2
      cases hx : n.data with
      | nil => exact hnd hx
      | cons c cs =>
        rw [hx] at h2
        have := congrArg List.length h2
        simp at this
    simp [finishFlags, ho, hp, hi]

end Bpftime

namespace Bpftime

theorem statusFlagNames_eq_nil (R : Nat) :
    statusFlagNames R = [] ↔ ∀ i, i < 16 → statusBit R i = false := by
  unfold statusFlagNames
  rw [setFlagsFrom_eq_nil]
  simp [flagTable]

theorem statusText_ne_NONE (R : Nat) (h : statusFlagNames R ≠ []) : statusText R ≠ "NONE" := by
  unfold statusText
  rw [if_neg h]
  have hsub := setFlagsFrom_subset R flagTable 0
  unfold statusFlagNames at h ⊢
  cases hn : setFlagsFrom R 0 flagTable with
  | nil => exact absurd hn h
  | cons n ns =>
    rw [hn] at hsub
    intro he
    have hd := intercalate_data n ns
    rw [he] at hd
    cases ns with
    | nil =>
      simp only [barred, List.append_cancel_right_eq] at hd
      have hN : n = "NONE" := String.ext hd.symm
      have : ∀ m ∈ flagTable, m ≠ "NONE" := by decide
      exact this n (hsub n (List.mem_cons_self _ _)) hN
    | cons m ms =>
      have hc := congrArg (List.count '|') hd
      simp only [barred, List.count_append, List.count_cons_self] at hc
      simp only [List.count_nil] at hc
      have h1 : List.count '|' ['N', 'O', 'N', 'E'] = 0 := by decide
      rw [h1] at hc
      omega

/-- C10: for every status word, `StatusToString` is the text the specification
describes: "NONE" when no flag is set, else the names of the set bits 0..15 in ascending
bit order (PLL, PPSFREQ, PPSTIME, FLL, INS, DEL, UNSYNC, FREQHOLD, PPSSIGNAL, PPSJITTER,
PPSWANDER, PPSERROR, CLOCKERR, NANO, MODE, CLK) joined by single bars.  It answers
"NONE" exactly when bits 0..15 are all clear, and two words that agree on bits 0..15
give the same text, so the reserved upper bits never matter. -/
theorem C10_StatusToString_by_bit_position (st : TimexStatus) :
    StatusToString st = statusText st.R ∧
    (statusText st.R =
      if statusFlagNames st.R = [] then "NONE" else "|".intercalate (statusFlagNames st.R)) ∧
    (StatusToString st = "NONE" ↔ ∀ i, i < 16 → statusBit st.R i = false) ∧
    (∀ st2 : TimexStatus, st2.R % 2 ^ 16 = st.R % 2 ^ 16 →
      StatusToString st2 = StatusToString st) := by
  refine ⟨StatusToString_statusText st, rfl, ?_, ?_⟩
  · rw [StatusToString_statusText, ← statusFlagNames_eq_nil]
    constructor
    · intro h
      by_contra hne
      exact statusText_ne_NONE st.R hne h
    · intro h
      simp [statusText, h]
  · intro st2 h
    rw [StatusToString_statusText, StatusToString_statusText]
    unfold statusText statusFlagNames
    rw [setFlagsFrom_congr st2.R st.R flagTable 0]
    intro j hj
    have hj16 : 0 + j < 16 := by simpa [flagTable] using hj
    exact statusBit_low st.R st2.R h (0 + j) hj16

/-- Witness for C10: the word 0x2041 (bits 0, 6, 13) and the same word with all reserved
bits set. -/
theorem C10_StatusToString_by_bit_position_witness :
    StatusToString ⟨0x2041⟩ = "PLL|UNSYNC|NANO" ∧
    statusFlagNames 0x2041 = ["PLL", "UNSYNC", "NANO"] ∧
    StatusToString ⟨0xFFFF2041⟩ = StatusToString ⟨0x2041⟩ ∧
    StatusToString ⟨0xFFFF0000⟩ = "NONE" :=
  ⟨by decide, by decide,
    (C10_StatusToString_by_bit_position ⟨0x2041⟩).2.2.2 ⟨0xFFFF2041⟩ (by decide),
    (C10_StatusToString_by_bit_position ⟨0xFFFF0000⟩).2.2.1.mpr (by decide)⟩

end Bpftime
